import Mathlib

/-
Shallow embedding of the ephemeral file-sharing server (server.js).

The server keeps a JSON store (files.json) mapping a random id to a file
record, and an uploads directory of stored byte files.  Every request
handler loads the whole store from disk, possibly mutates it, and writes
it back whole, so a server state is modelled as the pair of the persisted
store and the filesystem of uploaded files.  Wall-clock reads
(Date.now()) are modelled as explicit Nat parameters: one parameter per
syntactic Date.now() call site, in source order; the cleanup job reads
the clock once per inspected record, so it receives a whole clock
function indexed by the iteration number.
-/

set_option autoImplicit false

namespace FileShare

/-- Contents of one stored file, as a byte list. -/
abbrev Bytes := List Nat

/-- One record of the store, the shape of `DB[id]` built at lines 71-79 of
server.js: `{id, filename, originalName, path, passwordHash, uploadedAt,
expiresAt}`.  `passwordHash` is `null` (here `none`) when no password was
supplied. -/
structure FileRecord where
  id : String
  filename : String
  originalName : String
  path : String
  passwordHash : Option String
  uploadedAt : Nat
  expiresAt : Nat
deriving DecidableEq, Repr

/-- The store: the JS object parsed from files.json, a finite map from id
to record, modelled as an association list (JS objects have unique keys;
all operations below treat the first binding of a key as the binding). -/
abbrev DB := List (String × FileRecord)

/-- The uploads directory: a map from path to file bytes. -/
abbrev FS := List (String × Bytes)

/-- Lookup `DB[id]`: first binding of `id` in the store, if any. -/
def dbLookup (id : String) : DB → Option FileRecord
  | [] => none
  | (k, v) :: rest => if k = id then some v else dbLookup id rest

/-- Deletion `delete DB[id]`: drop every binding of `id` (a JS object holds at most
one). -/
def dbErase (id : String) : DB → DB
  | [] => []
  | (k, v) :: rest => if k = id then dbErase id rest else (k, v) :: dbErase id rest

/-- Assignment `DB[id] = v`: replace the binding of `id` if present, else append it,
as JS property assignment does. -/
def dbInsert (id : String) (v : FileRecord) : DB → DB
  | [] => [(id, v)]
  | (k, w) :: rest => if k = id then (k, v) :: rest else (k, w) :: dbInsert id v rest

/-- Read a file's bytes at a path. -/
def fsLookup (p : String) : FS → Option Bytes
  | [] => none
  | (k, v) :: rest => if k = p then some v else fsLookup p rest

/-- Best-effort unlink, `try { if (fs.existsSync(p)) fs.unlinkSync(p); } catch (e) {}`
(lines 118 and 156): best-effort removal of the file at `p`; a missing
file is tolerated. -/
def fsUnlink (p : String) : FS → FS
  | [] => []
  | (k, v) :: rest => if k = p then fsUnlink p rest else (k, v) :: fsUnlink p rest

/-- Write a file's bytes at a path (multer persisting the upload). -/
def fsInsert (p : String) (b : Bytes) : FS → FS
  | [] => [(p, b)]
  | (k, w) :: rest => if k = p then (k, b) :: rest else (k, w) :: fsInsert p b rest

/-- JS truthiness of a nullable string, as used by `if (f.passwordHash)`
(line 125) and `!!f.passwordHash` (line 104): `null` and the empty string
are falsy. -/
def jsTruthyStr : Option String → Bool
  | none => false
  | some s => s ≠ ""

/-- Modelled from the spec: `crypto.createHash('sha256').update(p)
.digest('hex')` (line 57) is a call into the external crypto library,
which is not part of this repository; the spec requires only a
"deterministic one-way digest".  It is modelled as a deterministic
total tagging function on strings whose output is never empty. -/
def sha256hex (s : String) : String := "sha256:" ++ s

/-- Function `hashPwd` (lines 55-58): `if (!p) return null;` then the sha256 hex
digest.  A `null` (`none`) or empty-string argument is falsy and maps to
the `null` sentinel. -/
def hashPwd (p : Option String) : Option String :=
  match p with
  | none => none
  | some s => if s = "" then none else some (sha256hex s)

/-- Modelled from the spec: `path.basename(p)` is an external path library
call, returning the last `/`-separated component of `p`. -/
def basename (p : String) : String := (p.splitOn "/").getLastD p

/-- The persisted server state: the store blob on disk and the uploads
directory.  Each handler loads the store, and every mutation it makes is
followed by `saveDB`, so the state a handler returns is again the
persisted state. -/
structure SrvState where
  db : DB
  fs : FS
deriving DecidableEq, Repr

/-- What multer hands the upload handler in `req.file`: the generated
stored filename, the client's original name, the path the bytes were
written to, and the bytes themselves (already persisted before the
handler body runs). -/
structure UploadedFile where
  filename : String
  originalname : String
  path : String
  bytes : Bytes
deriving DecidableEq, Repr

/-- Response of `POST /upload`: 400 when no file field, otherwise the
JSON `{message, id, fileUrl, qrData, expiresAt}` (URL and QR-image
generation are external and carry no state, so the response keeps the id
and expiry). -/
inductive UploadResp where
  | noFile
  | uploaded (id : String) (expiresAt : Nat)
deriving DecidableEq, Repr

/-- The record built at lines 71-79 of server.js.  `expiresAt` comes from
the `Date.now()` call at line 68 (`now1`) plus ten minutes; `uploadedAt`
comes from the separate, later `Date.now()` call at line 77 (`now2`).
`password = req.body.password || null` (line 69) turns an absent or empty
password field into `null`, and `passwordHash` is `password ?
hashPwd(password) : null` (line 76). -/
def mkRecord (now1 now2 : Nat) (newId : String) (uf : UploadedFile)
    (bodyPassword : Option String) : FileRecord :=
  let password : Option String :=
    match bodyPassword with
    | some s => if s = "" then none else some s
    | none => none
  { id := newId
    filename := uf.filename
    originalName := uf.originalname
    path := uf.path
    passwordHash :=
      match password with
      | some s => hashPwd (some s)
      | none => none
    uploadedAt := now2
    expiresAt := now1 + 10 * 60 * 1000 }

/-- Handler `app.post('/upload')` (lines 61-93): reject a missing file with 400;
otherwise store the record under a fresh id (`genId` is an external
random source, so the id is a parameter) and persist.  The uploaded bytes
were written to `uf.path` by multer as part of the same request. -/
def uploadHandler (now1 now2 : Nat) (newId : String) (file : Option UploadedFile)
    (bodyPassword : Option String) (st : SrvState) : UploadResp × SrvState :=
  match file with
  | none => (UploadResp.noFile, st)
  | some uf =>
    let r := mkRecord now1 now2 newId uf bodyPassword
    (UploadResp.uploaded newId r.expiresAt,
      ⟨dbInsert newId r st.db, fsInsert uf.path uf.bytes st.fs⟩)

/-- Response of `GET /meta/:id`: 404 `{error}` or the JSON
`{id, originalName, expiresAt, passwordProtected}` — these four fields
are the whole response body. -/
inductive MetaResp where
  | notFound
  | found (id : String) (originalName : String) (expiresAt : Nat)
      (passwordProtected : Bool)
deriving DecidableEq, Repr

/-- The JSON body built at lines 100-105: exactly
`{id: f.id, originalName: f.originalName, expiresAt: f.expiresAt,
passwordProtected: !!f.passwordHash}`. -/
def metaOf (f : FileRecord) : MetaResp :=
  MetaResp.found f.id f.originalName f.expiresAt (jsTruthyStr f.passwordHash)

/-- Handler `app.get('/meta/:id')` (lines 96-106): look the id up in the loaded
store; 404 if absent, else the display subset.  The handler performs no
write, so the state passes through unchanged. -/
def metaHandler (id : String) (st : SrvState) : MetaResp × SrvState :=
  match dbLookup id st.db with
  | none => (MetaResp.notFound, st)
  | some f => (metaOf f, st)

/-- Response of `POST /download/:id`: 404, 410, 401, the file stream with
its suggested save name, or the 500 sent when `res.download` reports an
error before any bytes went out. -/
inductive DownloadResp where
  | notFound
  | expired
  | unauthorized
  | stream (sendName : String) (content : Bytes)
  | streamError
deriving DecidableEq, Repr

/-- Lines 132-141: `sendName = f.originalName || path.basename(f.path)`
then `res.download(f.path, sendName, ...)`, which streams the file at
`f.path` or reports an error when it cannot be read. -/
def downloadStream (f : FileRecord) (st : SrvState) : DownloadResp × SrvState :=
  let sendName := if f.originalName = "" then basename f.path else f.originalName
  match fsLookup f.path st.fs with
  | some bytes => (DownloadResp.stream sendName bytes, st)
  | none => (DownloadResp.streamError, st)

/-- Handler `app.post('/download/:id')` (lines 109-142).  `now` is the single
`Date.now()` read at line 116.  Absent id: 404.  Expired: best-effort
unlink of the stored file, `delete DB[id]`, `saveDB`, 410.  A truthy
stored digest demands `hashPwd(provided) === f.passwordHash` where
`provided = (req.body && req.body.password) || ''` (lines 125-130),
else 401 with nothing written.  Otherwise the file is streamed and
nothing is written. -/
def downloadHandler (now : Nat) (id : String) (bodyPassword : Option String)
    (st : SrvState) : DownloadResp × SrvState :=
  match dbLookup id st.db with
  | none => (DownloadResp.notFound, st)
  | some f =>
    if now > f.expiresAt then
      (DownloadResp.expired, ⟨dbErase id st.db, fsUnlink f.path st.fs⟩)
    else
      if jsTruthyStr f.passwordHash then
        let provided := bodyPassword.getD ""
        if hashPwd (some provided) ≠ f.passwordHash then
          (DownloadResp.unauthorized, st)
        else
          downloadStream f st
      else
        downloadStream f st

/-- Response of `GET /health`: the JSON `{ok, stored}`. -/
structure HealthResp where
  ok : Bool
  stored : Nat
deriving DecidableEq, Repr

/-- Handler `app.get('/health')` (lines 145-148): `{ok: true, stored:
Object.keys(DB).length}` — the number of bindings in the loaded store. -/
def healthHandler (st : SrvState) : HealthResp :=
  ⟨true, st.db.length⟩

/-- The number of records of `db` that are live (not expired) at `now`,
under the expiry test the code uses everywhere (`Date.now() >
f.expiresAt` means expired).  This is the count the spec says `/health`
reports; it is compared against what `healthHandler` actually returns. -/
def liveCount (now : Nat) (db : DB) : Nat :=
  (db.filter (fun e => decide (now ≤ e.2.expiresAt))).length

/-- Result of one pass of the cleanup loop body (lines 152-161): the
surviving bindings, the filesystem after the unlinks, and the `changed`
flag. -/
structure SweepOut where
  db : DB
  fs : FS
  changed : Bool
deriving DecidableEq, Repr

/-- The `for (const [id, f] of Object.entries(DB))` loop of the cleanup
job (lines 154-161).  `Date.now()` is evaluated afresh inside the loop
for every record (line 155), so the clock is a function of the iteration
index `k`.  An expired record has its file best-effort unlinked and its
binding dropped, and sets `changed`. -/
def sweepAux (clock : Nat → Nat) (k : Nat) (fs0 : FS) : DB → SweepOut
  | [] => ⟨[], fs0, false⟩
  | (i, f) :: rest =>
    if clock k > f.expiresAt then
      ⟨(sweepAux clock (k + 1) (fsUnlink f.path fs0) rest).db,
        (sweepAux clock (k + 1) (fsUnlink f.path fs0) rest).fs,
        true⟩
    else
      ⟨(i, f) :: (sweepAux clock (k + 1) fs0 rest).db,
        (sweepAux clock (k + 1) fs0 rest).fs,
        (sweepAux clock (k + 1) fs0 rest).changed⟩

/-- One run of the `setInterval` cleanup job (lines 151-163): load the
store, sweep it, and `if (changed) saveDB(DB)`.  The returned `Nat` is
the number of `saveDB` calls the run performs.  When nothing changed the
in-memory map equals the loaded one, so the persisted state is the swept
state in both cases. -/
def cleanupSweep (clock : Nat → Nat) (st : SrvState) : SrvState × Nat :=
  let out := sweepAux clock 0 st.fs st.db
  (⟨out.db, out.fs⟩, if out.changed then 1 else 0)

/-- Function `loadDB` (lines 21-28): the blob is read and JSON-parsed inside a
`try`; a parse failure is caught, logged, and turned into the empty map.
JSON.parse is external, so its outcome is the `Option DB` argument:
`none` is a deserialization failure. -/
def loadDB (parsed : Option DB) : DB :=
  match parsed with
  | some db => db
  | none => []

/-- Fixture: a passwordless record whose file is at "uploads/x" and which
expires at time 5. -/
def recA : FileRecord :=
  { id := "abc", filename := "x", originalName := "a.txt", path := "uploads/x",
    passwordHash := none, uploadedAt := 0, expiresAt := 5 }

/-- Fixture: a record protected by the password "abc", expiring at 100. -/
def recPw : FileRecord :=
  { id := "pwd1", filename := "y", originalName := "b.txt", path := "uploads/y",
    passwordHash := hashPwd (some "abc"), uploadedAt := 0, expiresAt := 100 }

/-- Fixture: a password-protected record already expired at time 6. -/
def recPwExp : FileRecord :=
  { id := "old1", filename := "z", originalName := "c.txt", path := "uploads/z",
    passwordHash := hashPwd (some "abc"), uploadedAt := 0, expiresAt := 5 }

/-- Fixture: a record expiring exactly at time 5, for the sweep boundary. -/
def recExp5 : FileRecord :=
  { id := "a", filename := "s", originalName := "o", path := "p",
    passwordHash := none, uploadedAt := 0, expiresAt := 5 }

/-- Fixture: an uploaded file as multer presents it. -/
def testFile : UploadedFile :=
  { filename := "167-1.txt", originalname := "a.txt", path := "uploads/167-1.txt",
    bytes := [1, 2, 3] }

/-- Looking an id up after erasing it finds nothing. -/
theorem dbLookup_dbErase (id : String) (db : DB) :
    dbLookup id (dbErase id db) = none := by
  induction db with
  | nil => rfl
  | cons hd rest ih =>
    obtain ⟨k, v⟩ := hd
    by_cases h : k = id
    · simpa [dbErase, h] using ih
    · simp [dbErase, dbLookup, h, ih]

/-- Looking an id up right after assigning it finds the assigned record. -/
theorem dbLookup_dbInsert (id : String) (v : FileRecord) (db : DB) :
    dbLookup id (dbInsert id v db) = some v := by
  induction db with
  | nil => simp [dbInsert, dbLookup]
  | cons hd rest ih =>
    obtain ⟨k, w⟩ := hd
    by_cases h : k = id
    · simp [dbInsert, dbLookup, h]
    · simp [dbInsert, dbLookup, h, ih]

/-- Surviving store of an expired head step of the sweep loop. -/
theorem sweepAux_db_cons_expired (clock : Nat → Nat) (k : Nat) (fs0 : FS)
    (i : String) (f : FileRecord) (rest : DB) (h : clock k > f.expiresAt) :
    (sweepAux clock k fs0 ((i, f) :: rest)).db =
      (sweepAux clock (k + 1) (fsUnlink f.path fs0) rest).db := by
  simp only [sweepAux]
  rw [if_pos h]

/-- Surviving store of a live head step of the sweep loop. -/
theorem sweepAux_db_cons_live (clock : Nat → Nat) (k : Nat) (fs0 : FS)
    (i : String) (f : FileRecord) (rest : DB) (h : ¬ clock k > f.expiresAt) :
    (sweepAux clock k fs0 ((i, f) :: rest)).db =
      (i, f) :: (sweepAux clock (k + 1) fs0 rest).db := by
  simp only [sweepAux]
  rw [if_neg h]

/-- Changed flag of an expired head step of the sweep loop. -/
theorem sweepAux_changed_cons_expired (clock : Nat → Nat) (k : Nat) (fs0 : FS)
    (i : String) (f : FileRecord) (rest : DB) (h : clock k > f.expiresAt) :
    (sweepAux clock k fs0 ((i, f) :: rest)).changed = true := by
  simp only [sweepAux]
  rw [if_pos h]

/-- Changed flag of a live head step of the sweep loop. -/
theorem sweepAux_changed_cons_live (clock : Nat → Nat) (k : Nat) (fs0 : FS)
    (i : String) (f : FileRecord) (rest : DB) (h : ¬ clock k > f.expiresAt) :
    (sweepAux clock k fs0 ((i, f) :: rest)).changed =
      (sweepAux clock (k + 1) fs0 rest).changed := by
  simp only [sweepAux]
  rw [if_neg h]

/-- Filesystem of a live head step of the sweep loop. -/
theorem sweepAux_fs_cons_live (clock : Nat → Nat) (k : Nat) (fs0 : FS)
    (i : String) (f : FileRecord) (rest : DB) (h : ¬ clock k > f.expiresAt) :
    (sweepAux clock k fs0 ((i, f) :: rest)).fs =
      (sweepAux clock (k + 1) fs0 rest).fs := by
  simp only [sweepAux]
  rw [if_neg h]

/-- Unlinking a path removes it from the filesystem. -/
theorem fsLookup_fsUnlink (p : String) (fs : FS) :
    fsLookup p (fsUnlink p fs) = none := by
  induction fs with
  | nil => rfl
  | cons hd rest ih =>
    obtain ⟨k, v⟩ := hd
    by_cases h : k = p
    · simpa [fsUnlink, h] using ih
    · simp [fsUnlink, fsLookup, h, ih]

/-- Unlinking never recreates a path that was already absent. -/
theorem fsLookup_fsUnlink_none (q p : String) (fs : FS)
    (h : fsLookup q fs = none) : fsLookup q (fsUnlink p fs) = none := by
  induction fs with
  | nil => rfl
  | cons hd rest ih =>
    obtain ⟨k, v⟩ := hd
    by_cases hq : k = q
    · simp [fsLookup, hq] at h
    · simp only [fsLookup, if_neg hq] at h
      by_cases hk : k = p
      · simpa [fsUnlink, hk] using ih h
      · simp [fsUnlink, hk, fsLookup, hq, ih h]

/-- Filesystem of an expired head step of the sweep loop. -/
theorem sweepAux_fs_cons_expired (clock : Nat → Nat) (k : Nat) (fs0 : FS)
    (i : String) (f : FileRecord) (rest : DB) (h : clock k > f.expiresAt) :
    (sweepAux clock k fs0 ((i, f) :: rest)).fs =
      (sweepAux clock (k + 1) (fsUnlink f.path fs0) rest).fs := by
  simp only [sweepAux]
  rw [if_pos h]

/-- The sweep loop only unlinks, so a path absent from its filesystem on
entry stays absent in its result. -/
theorem sweepAux_fs_none (clock : Nat → Nat) (db : DB) (k : Nat) (fs0 : FS)
    (q : String) (h : fsLookup q fs0 = none) :
    fsLookup q (sweepAux clock k fs0 db).fs = none := by
  induction db generalizing k fs0 with
  | nil => exact h
  | cons hd rest ih =>
    obtain ⟨i, f⟩ := hd
    by_cases hx : clock k > f.expiresAt
    · rw [sweepAux_fs_cons_expired clock k fs0 i f rest hx]
      exact ih (k + 1) (fsUnlink f.path fs0) (fsLookup_fsUnlink_none q f.path fs0 h)
    · rw [sweepAux_fs_cons_live clock k fs0 i f rest hx]
      exact ih (k + 1) fs0 h

/-- A stored record that the clock sees as expired at every iteration
from `k` on has its file absent from the sweep loop's final filesystem:
it is unlinked when its entry is inspected and never recreated. -/
theorem sweepAux_unlinks (clock : Nat → Nat) (db : DB) :
    ∀ (k : Nat) (fs0 : FS) (e : String × FileRecord), e ∈ db →
      (∀ j, k ≤ j → clock j > e.2.expiresAt) →
      fsLookup e.2.path (sweepAux clock k fs0 db).fs = none := by
  induction db with
  | nil =>
    intro k fs0 e he hexp
    cases he
  | cons hd rest ih =>
    intro k fs0 e he hexp
    obtain ⟨i, f⟩ := hd
    rcases List.mem_cons.mp he with heq | hmem
    · subst heq
      have hx : clock k > (i, f).2.expiresAt := hexp k (Nat.le_refl k)
      rw [sweepAux_fs_cons_expired clock k fs0 i f rest hx]
      exact sweepAux_fs_none clock rest (k + 1) (fsUnlink f.path fs0) f.path
        (fsLookup_fsUnlink f.path fs0)
    · by_cases hx : clock k > f.expiresAt
      · rw [sweepAux_fs_cons_expired clock k fs0 i f rest hx]
        exact ih (k + 1) (fsUnlink f.path fs0) e hmem
          (fun j hj => hexp j (Nat.le_of_succ_le hj))
      · rw [sweepAux_fs_cons_live clock k fs0 i f rest hx]
        exact ih (k + 1) fs0 e hmem (fun j hj => hexp j (Nat.le_of_succ_le hj))

/-- Every entry surviving the sweep loop was already in the store and was
seen live by the clock at some iteration at or after the starting one. -/
theorem sweepAux_mem_le (clock : Nat → Nat) (db : DB) (k : Nat) (fs0 : FS)
    (e : String × FileRecord) (hmem : e ∈ (sweepAux clock k fs0 db).db) :
    e ∈ db ∧ ∃ j, k ≤ j ∧ clock j ≤ e.2.expiresAt := by
  induction db generalizing k fs0 with
  | nil => simp [sweepAux] at hmem
  | cons hd rest ih =>
    obtain ⟨i, f⟩ := hd
    by_cases h : clock k > f.expiresAt
    · rw [sweepAux_db_cons_expired clock k fs0 i f rest h] at hmem
      obtain ⟨hin, j, hkj, hcl⟩ := ih (k + 1) (fsUnlink f.path fs0) hmem
      exact ⟨List.mem_cons_of_mem _ hin, j, Nat.le_of_succ_le hkj, hcl⟩
    · rw [sweepAux_db_cons_live clock k fs0 i f rest h] at hmem
      rcases List.mem_cons.mp hmem with heq | hmem2
      · subst heq
        exact ⟨List.mem_cons_self _ _, k, Nat.le_refl k, Nat.le_of_not_lt h⟩
      · obtain ⟨hin, j, hkj, hcl⟩ := ih (k + 1) fs0 hmem2
        exact ⟨List.mem_cons_of_mem _ hin, j, Nat.le_of_succ_le hkj, hcl⟩

/-- When the sweep loop reports no change, it removed nothing and
unlinked nothing. -/
theorem sweepAux_unchanged (clock : Nat → Nat) (db : DB) (k : Nat) (fs0 : FS)
    (h : (sweepAux clock k fs0 db).changed = false) :
    (sweepAux clock k fs0 db).db = db ∧ (sweepAux clock k fs0 db).fs = fs0 := by
  induction db generalizing k fs0 with
  | nil => exact ⟨rfl, rfl⟩
  | cons hd rest ih =>
    obtain ⟨i, f⟩ := hd
    by_cases hx : clock k > f.expiresAt
    · rw [sweepAux_changed_cons_expired clock k fs0 i f rest hx] at h
      cases h
    · rw [sweepAux_changed_cons_live clock k fs0 i f rest hx] at h
      obtain ⟨h1, h2⟩ := ih (k + 1) fs0 h
      rw [sweepAux_db_cons_live clock k fs0 i f rest hx,
        sweepAux_fs_cons_live clock k fs0 i f rest hx, h1, h2]
      exact ⟨rfl, rfl⟩

/-- The sweep loop never grows the store. -/
theorem sweepAux_length_le (clock : Nat → Nat) (db : DB) (k : Nat) (fs0 : FS) :
    (sweepAux clock k fs0 db).db.length ≤ db.length := by
  induction db generalizing k fs0 with
  | nil => exact Nat.le_refl 0
  | cons hd rest ih =>
    obtain ⟨i, f⟩ := hd
    by_cases hx : clock k > f.expiresAt
    · rw [sweepAux_db_cons_expired clock k fs0 i f rest hx]
      exact Nat.le_succ_of_le (ih (k + 1) (fsUnlink f.path fs0))
    · rw [sweepAux_db_cons_live clock k fs0 i f rest hx]
      exact Nat.succ_le_succ (ih (k + 1) fs0)

/-- When the sweep loop reports a change, at least one binding is gone. -/
theorem sweepAux_changed_shrinks (clock : Nat → Nat) (db : DB) (k : Nat) (fs0 : FS)
    (h : (sweepAux clock k fs0 db).changed = true) :
    (sweepAux clock k fs0 db).db.length < db.length := by
  induction db generalizing k fs0 with
  | nil => simp [sweepAux] at h
  | cons hd rest ih =>
    obtain ⟨i, f⟩ := hd
    by_cases hx : clock k > f.expiresAt
    · rw [sweepAux_db_cons_expired clock k fs0 i f rest hx]
      exact Nat.lt_succ_of_le (sweepAux_length_le clock rest (k + 1) (fsUnlink f.path fs0))
    · rw [sweepAux_changed_cons_live clock k fs0 i f rest hx] at h
      rw [sweepAux_db_cons_live clock k fs0 i f rest hx]
      exact Nat.succ_lt_succ (ih (k + 1) fs0 h)

/-- Claim C1: a download request on a stored id whose expiry has passed
best-effort unlinks the stored file, removes the record, persists the
shrunken store, and answers 410 expired; in the resulting state every
further download of that id answers 404 not-found without changing the
state, and a metadata request for it answers 404 as well. -/
theorem download_expired_deletes (now : Nat) (id : String) (pw : Option String)
    (st : SrvState) (f : FileRecord)
    (hf : dbLookup id st.db = some f) (hexp : now > f.expiresAt) :
    downloadHandler now id pw st =
      (DownloadResp.expired, ⟨dbErase id st.db, fsUnlink f.path st.fs⟩) ∧
    (∀ now2 pw2,
      downloadHandler now2 id pw2 ⟨dbErase id st.db, fsUnlink f.path st.fs⟩ =
        (DownloadResp.notFound, ⟨dbErase id st.db, fsUnlink f.path st.fs⟩)) ∧
    (metaHandler id ⟨dbErase id st.db, fsUnlink f.path st.fs⟩).1 = MetaResp.notFound := by
  refine ⟨by simp [downloadHandler, hf, hexp], ?_, ?_⟩
  · intro now2 pw2
    simp [downloadHandler, dbLookup_dbErase]
  · simp [metaHandler, dbLookup_dbErase]

/-- Witness for C1 at a concrete expired record. -/
theorem download_expired_deletes_witness :
    downloadHandler 6 "abc" none ⟨[("abc", recA)], [("uploads/x", [7])]⟩ =
      (DownloadResp.expired, ⟨[], []⟩) := by
  have h := download_expired_deletes 6 "abc" none
    ⟨[("abc", recA)], [("uploads/x", [7])]⟩ recA rfl (by decide)
  exact h.1

/-- Claim C2: a download of an unexpired password-protected record with a
missing password, or with a password whose hash differs from the stored
digest, answers 401 unauthorized and leaves the state untouched, so the
record stays available for retries. -/
theorem download_bad_password_unauthorized (now : Nat) (id : String)
    (pw : Option String) (st : SrvState) (f : FileRecord)
    (hf : dbLookup id st.db = some f) (hlive : ¬ now > f.expiresAt)
    (hdig : jsTruthyStr f.passwordHash = true)
    (hmiss : pw = none ∨ hashPwd (some (pw.getD "")) ≠ f.passwordHash) :
    downloadHandler now id pw st = (DownloadResp.unauthorized, st) := by
  have hne : hashPwd (some (pw.getD "")) ≠ f.passwordHash := by
    rcases hmiss with rfl | h
    · cases hph : f.passwordHash with
      | none => rw [hph] at hdig; simp [jsTruthyStr] at hdig
      | some s => simp [Option.getD, hashPwd]
    · exact h
  simp [downloadHandler, hf, hlive, hdig, hne]

/-- Witness for C2 at a concrete wrong-password request. -/
theorem download_bad_password_unauthorized_witness :
    downloadHandler 10 "pwd1" (some "nope") ⟨[("pwd1", recPw)], [("uploads/y", [1, 2])]⟩ =
      (DownloadResp.unauthorized, ⟨[("pwd1", recPw)], [("uploads/y", [1, 2])]⟩) :=
  download_bad_password_unauthorized 10 "pwd1" (some "nope")
    ⟨[("pwd1", recPw)], [("uploads/y", [1, 2])]⟩ recPw rfl (by decide) (by decide)
    (Or.inr (by decide))

/-- Counterexample to claim C3 as stated: the upload handler reads the
clock once at line 68 for `expiresAt` and again at line 77 for
`uploadedAt`; when the clock advances by one millisecond between the two
reads, the created record has `expiresAt` differing from
`uploadedAt + 600000`. -/
theorem upload_ttl_offset_cex :
    dbLookup "id0" (uploadHandler 0 1 "id0" (some testFile) none ⟨[], []⟩).2.db =
      some (mkRecord 0 1 "id0" testFile none) ∧
    (mkRecord 0 1 "id0" testFile none).expiresAt ≠
      (mkRecord 0 1 "id0" testFile none).uploadedAt + 600000 := by
  exact ⟨rfl, by decide⟩

/-- Claim C3 (amended): the created record's `expiresAt` is the first
clock read of the upload handler plus the fixed 600000 ms TTL, and its
`uploadedAt` is the later second read, so `expiresAt` is at most
`uploadedAt + 600000`, with equality exactly when the two reads of
`Date.now()` return the same millisecond. -/
theorem upload_expiry_first_read (now1 now2 : Nat) (newId : String)
    (uf : UploadedFile) (pw : Option String) (st : SrvState) (hmono : now1 ≤ now2) :
    dbLookup newId (uploadHandler now1 now2 newId (some uf) pw st).2.db =
      some (mkRecord now1 now2 newId uf pw) ∧
    (mkRecord now1 now2 newId uf pw).expiresAt = now1 + 600000 ∧
    (mkRecord now1 now2 newId uf pw).uploadedAt = now2 ∧
    (mkRecord now1 now2 newId uf pw).expiresAt ≤
      (mkRecord now1 now2 newId uf pw).uploadedAt + 600000 ∧
    (now1 = now2 →
      (mkRecord now1 now2 newId uf pw).expiresAt =
        (mkRecord now1 now2 newId uf pw).uploadedAt + 600000) := by
  refine ⟨dbLookup_dbInsert _ _ _, rfl, rfl, ?_, ?_⟩
  · show now1 + 10 * 60 * 1000 ≤ now2 + 600000
    omega
  · intro h
    subst h
    rfl

/-- Witness for the amended C3 with both clock reads at the same instant. -/
theorem upload_expiry_first_read_witness :
    (mkRecord 2 2 "id0" testFile none).expiresAt ≤
      (mkRecord 2 2 "id0" testFile none).uploadedAt + 600000 :=
  (upload_expiry_first_read 2 2 "id0" testFile none ⟨[], []⟩ (Nat.le_refl 2)).2.2.2.1

/-- Claim C4: a download of an unexpired record that passes the password
gate (no truthy digest stored, or a matching password supplied) streams
the stored bytes under the record's original name and leaves the state
untouched, so an immediate repetition of the same request succeeds with
identical bytes. -/
theorem download_success_idempotent (now : Nat) (id : String) (pw : Option String)
    (st : SrvState) (f : FileRecord) (bytes : Bytes)
    (hf : dbLookup id st.db = some f) (hlive : ¬ now > f.expiresAt)
    (hauth : jsTruthyStr f.passwordHash = false ∨
      hashPwd (some (pw.getD "")) = f.passwordHash)
    (hname : f.originalName ≠ "") (hbytes : fsLookup f.path st.fs = some bytes) :
    downloadHandler now id pw st = (DownloadResp.stream f.originalName bytes, st) ∧
    downloadHandler now id pw (downloadHandler now id pw st).2 =
      (DownloadResp.stream f.originalName bytes, st) := by
  have hstream : downloadStream f st = (DownloadResp.stream f.originalName bytes, st) := by
    simp [downloadStream, hbytes, hname]
  have h1 : downloadHandler now id pw st = (DownloadResp.stream f.originalName bytes, st) := by
    rcases hauth with h | h
    · simp [downloadHandler, hf, hlive, h, hstream]
    · by_cases hd : jsTruthyStr f.passwordHash
      · simp [downloadHandler, hf, hlive, hd, h, hstream]
      · simp [downloadHandler, hf, hlive, hd, hstream]
  refine ⟨h1, ?_⟩
  rw [h1]
  exact h1

/-- Witness for C4 at a concrete passwordless unexpired record. -/
theorem download_success_idempotent_witness :
    downloadHandler 3 "abc" none ⟨[("abc", recA)], [("uploads/x", [7])]⟩ =
      (DownloadResp.stream "a.txt" [7], ⟨[("abc", recA)], [("uploads/x", [7])]⟩) := by
  have h := download_success_idempotent 3 "abc" none
    ⟨[("abc", recA)], [("uploads/x", [7])]⟩ recA [7] rfl (by decide)
    (Or.inl (by decide)) (by decide) rfl
  exact h.1

/-- Counterexample to the strict part of claim C5: a record whose
`expiresAt` equals the clock at sweep start survives the sweep (the code
removes only records with `Date.now() > expiresAt`), yet it does not
satisfy the claimed strict `expiresAt > now_at_sweep_start`. -/
theorem sweep_boundary_cex :
    dbLookup "a" (cleanupSweep (fun _ => 5) ⟨[("a", recExp5)], []⟩).1.db =
      some recExp5 ∧
    ¬ 5 < recExp5.expiresAt := by
  exact ⟨rfl, by decide⟩

/-- Claim C5 (amended): after a sweep whose per-record clock reads never
go below the read at sweep start, every surviving record satisfies
`expiresAt ≥ now_at_sweep_start` (equality is possible, so the spec's
strict bound fails only at that boundary), every record with
`expiresAt < now_at_sweep_start` is removed from the map and its file is
best-effort deleted (its path is gone from the resulting filesystem), and
the store is persisted at most once per sweep and only when at least one
record was removed. -/
theorem sweep_completes_invariant (clock : Nat → Nat) (st : SrvState)
    (hmono : ∀ k, clock 0 ≤ clock k) :
    (∀ e ∈ (cleanupSweep clock st).1.db, clock 0 ≤ e.2.expiresAt) ∧
    (∀ e ∈ st.db, clock 0 > e.2.expiresAt →
      e ∉ (cleanupSweep clock st).1.db ∧
      fsLookup e.2.path (cleanupSweep clock st).1.fs = none) ∧
    (cleanupSweep clock st).2 ≤ 1 ∧
    ((cleanupSweep clock st).2 = 0 → (cleanupSweep clock st).1 = st) ∧
    ((cleanupSweep clock st).2 = 1 →
      (cleanupSweep clock st).1.db.length < st.db.length) := by
  refine ⟨?_, ?_, ?_, ?_, ?_⟩
  · intro e he
    obtain ⟨-, j, -, hcl⟩ := sweepAux_mem_le clock st.db 0 st.fs e he
    exact Nat.le_trans (hmono j) hcl
  · intro e he hgt
    constructor
    · intro habs
      obtain ⟨-, j, -, hcl⟩ := sweepAux_mem_le clock st.db 0 st.fs e habs
      exact absurd (Nat.le_trans (hmono j) hcl) (Nat.not_le_of_lt hgt)
    · exact sweepAux_unlinks clock st.db 0 st.fs e he
        (fun j hj => Nat.lt_of_lt_of_le hgt (hmono j))
  · cases hc : (sweepAux clock 0 st.fs st.db).changed <;> simp [cleanupSweep, hc]
  · intro hz
    cases hc : (sweepAux clock 0 st.fs st.db).changed with
    | true => simp [cleanupSweep, hc] at hz
    | false =>
      obtain ⟨h1, h2⟩ := sweepAux_unchanged clock st.db 0 st.fs hc
      simp [cleanupSweep, h1, h2]
  · intro hone
    cases hc : (sweepAux clock 0 st.fs st.db).changed with
    | true => exact sweepAux_changed_shrinks clock st.db 0 st.fs hc
    | false => simp [cleanupSweep, hc] at hone

/-- Witness for the amended C5: a sweep at time 9 over a record expired
at 5 removes it, so the swept store is strictly smaller. -/
theorem sweep_completes_invariant_witness :
    (cleanupSweep (fun _ => 9) ⟨[("a", recExp5)], [("p", [9])]⟩).1.db.length < 1 :=
  (sweep_completes_invariant (fun _ => 9) ⟨[("a", recExp5)], [("p", [9])]⟩
    (fun _ => Nat.le_refl 9)).2.2.2.2 rfl

/-- Claim C6: the metadata handler answers 404 for an id without a
binding (whether never issued or already swept, the handler only sees
its absence), answers exactly the display subset `{id, originalName,
expiresAt, passwordProtected}` for a bound id without touching the
state, and its answer does not depend on the stored digest value or the
storage path: records agreeing on the display fields and on digest
truthiness produce identical responses. -/
theorem meta_display_safe (id : String) (st : SrvState) :
    (dbLookup id st.db = none → metaHandler id st = (MetaResp.notFound, st)) ∧
    (∀ f, dbLookup id st.db = some f →
      metaHandler id st =
        (MetaResp.found f.id f.originalName f.expiresAt (jsTruthyStr f.passwordHash), st)) ∧
    (∀ f g : FileRecord, f.id = g.id → f.originalName = g.originalName →
      f.expiresAt = g.expiresAt →
      jsTruthyStr f.passwordHash = jsTruthyStr g.passwordHash →
      metaOf f = metaOf g) := by
  refine ⟨fun h => by simp [metaHandler, h], fun f h => by simp [metaHandler, h, metaOf], ?_⟩
  intro f g h1 h2 h3 h4
  simp [metaOf, h1, h2, h3, h4]

/-- Witness for C6 at a concrete stored record. -/
theorem meta_display_safe_witness :
    metaHandler "abc" ⟨[("abc", recA)], []⟩ =
      (MetaResp.found "abc" "a.txt" 5 false, ⟨[("abc", recA)], []⟩) :=
  (meta_display_safe "abc" ⟨[("abc", recA)], []⟩).2.1 recA rfl

/-- Claim C7: the password digest function is deterministic, sends the
`null` and empty-string secrets to the `null` sentinel, sends every
non-empty secret to a non-`null` digest (so the sentinel is
distinguishable from every real digest), and an upload whose password
field is the empty string stores a record with no digest, hence not
password-protected. -/
theorem hashPwd_sentinel (s : String) (hs : s ≠ "") (now1 now2 : Nat)
    (newId : String) (uf : UploadedFile) (st : SrvState) :
    (∀ p q : Option String, p = q → hashPwd p = hashPwd q) ∧
    hashPwd none = none ∧
    hashPwd (some "") = none ∧
    hashPwd (some s) = some (sha256hex s) ∧
    hashPwd (some s) ≠ none ∧
    dbLookup newId (uploadHandler now1 now2 newId (some uf) (some "") st).2.db =
      some (mkRecord now1 now2 newId uf (some "")) ∧
    (mkRecord now1 now2 newId uf (some "")).passwordHash = none := by
  refine ⟨fun p q h => by rw [h], rfl, by simp [hashPwd], by simp [hashPwd, hs],
    by simp [hashPwd, hs], dbLookup_dbInsert _ _ _, rfl⟩

/-- Witness for C7 at the secret "abc" and a concrete empty-password
upload. -/
theorem hashPwd_sentinel_witness :
    hashPwd (some "") = none ∧
    (mkRecord 0 0 "id0" testFile (some "")).passwordHash = none := by
  have h := hashPwd_sentinel "abc" (by decide) 0 0 "id0" testFile ⟨[], []⟩
  exact ⟨h.2.2.1, h.2.2.2.2.2.2⟩

/-- Counterexample to claim C8 as stated: with one expired record still
in the store at time 6, the health endpoint reports `stored = 1` while
the count of live (unexpired) records is 0. -/
theorem health_counts_expired_cex :
    healthHandler ⟨[("a", recExp5)], []⟩ = ⟨true, 1⟩ ∧
    liveCount 6 [("a", recExp5)] = 0 ∧ (1 : Nat) ≠ 0 := by
  exact ⟨rfl, by decide, by decide⟩

/-- Claim C8 (amended): the health endpoint answers `{ok: true, stored:
n}` where `n` is the total number of bindings in the store — expired but
unswept records included — which coincides with the count of live
records exactly when no stored record has expired. -/
theorem health_stored_total (st : SrvState) (now : Nat)
    (hlive : ∀ e ∈ st.db, now ≤ e.2.expiresAt) :
    healthHandler st = ⟨true, st.db.length⟩ ∧
    st.db.length = liveCount now st.db := by
  refine ⟨rfl, ?_⟩
  unfold liveCount
  have hall : st.db.filter (fun e => decide (now ≤ e.2.expiresAt)) = st.db :=
    List.filter_eq_self.mpr (fun a ha => by simpa using hlive a ha)
  rw [hall]

/-- Witness for the amended C8 on a store with no expired record. -/
theorem health_stored_total_witness :
    healthHandler ⟨[("abc", recA)], []⟩ = ⟨true, 1⟩ ∧
    (1 : Nat) = liveCount 3 [("abc", recA)] := by
  have h := health_stored_total ⟨[("abc", recA)], []⟩ 3 (by decide)
  exact ⟨h.1, h.2⟩

/-- Claim C9: a deserialization failure of the backing blob makes
`loadDB` return the empty mapping instead of propagating the failure,
and a successful parse is passed through unchanged, so no caller ever
observes a deserialization error. -/
theorem loadDB_corrupt_empty :
    loadDB none = [] ∧ ∀ db : DB, loadDB (some db) = db :=
  ⟨rfl, fun _ => rfl⟩

/-- Claim C10: the metadata handler performs no expiry check, so an
expired record that still has a binding (not yet removed by a download
attempt or a sweep) is answered with its full display metadata rather
than 404, and the state is left untouched. -/
theorem meta_ignores_expiry (now : Nat) (id : String) (st : SrvState)
    (f : FileRecord) (hf : dbLookup id st.db = some f)
    (hexp : now > f.expiresAt) :
    metaHandler id st = (metaOf f, st) ∧ metaOf f ≠ MetaResp.notFound := by
  refine ⟨by simp [metaHandler, hf], by simp [metaOf]⟩

/-- Witness for C10 at a concrete expired password-protected record. -/
theorem meta_ignores_expiry_witness :
    metaHandler "old1" ⟨[("old1", recPwExp)], []⟩ =
      (MetaResp.found "old1" "c.txt" 5 true, ⟨[("old1", recPwExp)], []⟩) ∧
    MetaResp.found "old1" "c.txt" 5 true ≠ MetaResp.notFound := by
  have h := meta_ignores_expiry 6 "old1" ⟨[("old1", recPwExp)], []⟩ recPwExp rfl
    (by decide)
  exact ⟨h.1, h.2⟩

end FileShare
